import Mathlib

/-!
# BookIt-Frontend — Reservation Workflow Engine, verified model

A shallow embedding of the reservation workflow logic of the PAU Bookit
frontend.  The store-mutating operations are translated from
`src/pages/dashboards/AdminDashboard.jsx` (the only file that writes the
`classroomReservations` and `recentActivities` documents): `handleReviewSubmit`,
`handleCreateSubmit`, the `delete` and `bulk_approve` branches of
`handleConfirmAction`, and `addRecentActivity`.  Times-of-day and timestamps are
modelled as natural numbers (the code compares them with `<` / reads them from
the wall clock); a wall-clock reading is passed in as an explicit parameter,
and code that reads the clock once per loop iteration receives a `clock`
function applied to the iteration index.  Reservation statuses and review
decisions are the literal strings the code compares against
(`"pending"`, `"approved"`, `"denied"`).
-/

/-- Operational status of a room (`ROOM_STATUS` in the facility dashboard):
`AVAILABLE` or `UNAVAILABLE`. -/
inductive RoomStatus where
  | AVAILABLE
  | UNAVAILABLE
deriving DecidableEq, Repr

/-- A schedulable classroom: identifier, building, display name, seat count and
operational status. -/
structure Room where
  id : String
  building : String
  name : String
  seats : Nat
  status : RoomStatus
deriving DecidableEq, Repr

/-- A reservation record as stored in the `classroomReservations` document:
identifier (creation-time derived), room reference (`classroom`), date, start
and end time-of-day, purpose text, status string (`"pending"`, `"approved"`,
`"denied"`), creator and creation timestamp, optional review metadata
(`reviewedBy`, `reviewedAt`) and the admin-created flag. -/
structure Reservation where
  id : Nat
  classroom : String
  date : String
  startTime : Nat
  endTime : Nat
  purpose : String
  status : String
  createdBy : Nat
  createdAt : Nat
  reviewedBy : Option Nat
  reviewedAt : Option Nat
  isAdminCreated : Bool
deriving DecidableEq, Repr

/-- The `classroomReservations` document: reservations partitioned by status
into the `pending`, `approved` and `denied` arrays. -/
structure StoreState where
  pending : List Reservation
  approved : List Reservation
  denied : List Reservation
deriving DecidableEq, Repr

/-- Modelled from the spec: the `AvailabilityChecker.isAvailable` operation.
No implementation of the availability check exists under `src/` (the search
form only forwards its inputs), so the checker is taken from the
specification's words: keep the existing reservations that reference the same
room and the same date and whose status is PENDING or APPROVED; a conflict
exists when the requested half-open window `[startTime, endTime)` overlaps
such a reservation's window (`newStart < existingEnd && existingStart <
newEnd`); available iff no conflict was found and the room's operational
status is AVAILABLE. -/
def isAvailable (room : Room) (date : String) (startTime endTime : Nat)
    (existingReservations : List Reservation) : Bool :=
  let sameRoomDate := existingReservations.filter fun r =>
    r.classroom == room.id && r.date == date &&
      (r.status == "pending" || r.status == "approved")
  let conflict := sameRoomDate.any fun r =>
    decide (startTime < r.endTime) && decide (r.startTime < endTime)
  (room.status == RoomStatus.AVAILABLE) && !conflict

/-- An activity record as built by `addRecentActivity`
(AdminDashboard.jsx:82-96): identifier and timestamp read from the clock,
acting user name, then the caller-supplied `action`, `type`, `description` and
optional related-reservation reference. -/
structure ActivityRecord where
  id : Nat
  timestamp : Nat
  user : String
  action : String
  type : String
  description : String
  reservationId : Option Nat
deriving DecidableEq, Repr

/-- The core of `addRecentActivity` (AdminDashboard.jsx:91-92): `unshift` the
new record onto the stored list and keep only the first 50
(`activities.slice(0, 50)`). -/
def pushActivity (newActivity : ActivityRecord) (activities : List ActivityRecord) :
    List ActivityRecord :=
  List.take 50 (newActivity :: activities)

/-- `addRecentActivity` (AdminDashboard.jsx:82-96): build the record (clock
readings for `id`/`timestamp`, the acting user's name, the caller's fields)
and prepend it, truncating the stored log to the most recent 50. -/
def addRecentActivity (activities : List ActivityRecord) (idNow tsNow : Nat)
    (userName : String) (action ty descr : String) (resId : Option Nat) :
    List ActivityRecord :=
  pushActivity
    { id := idNow, timestamp := tsNow, user := userName, action := action,
      type := ty, description := descr, reservationId := resId }
    activities

/-- `loadRecentActivities` (AdminDashboard.jsx:70-73): surface the first 5
stored activities (`activities.slice(0, 5)`). -/
def loadRecentActivities (activities : List ActivityRecord) : List ActivityRecord :=
  activities.take 5

/-- Modelled from the spec: `ActivityLog.recent(n=5)` returns the first `n`
entries of the log.  The source only instantiates this at `n = 5`
(`loadRecentActivities`); the general-`n` operation exists only in the
specification. -/
def recent (n : Nat) (activities : List ActivityRecord) : List ActivityRecord :=
  activities.take n

/-- A whole history of `addRecentActivity` calls applied in order to the
initially-empty log (`localStorage` starts with no `recentActivities` key,
read back as `[]`). -/
def appendAll (recs : List ActivityRecord) : List ActivityRecord :=
  recs.foldl (fun acc a => pushActivity a acc) []

/-- `handleReviewSubmit` (AdminDashboard.jsx:99-148), store mutation: remove
the selected reservation's id from `pending`, merge the review data over the
selected record and stamp `reviewedBy` / `reviewedAt`, then push the result to
`approved` when the decision string is `"approved"`, to `denied` when it is
`"denied"`, and to no partition otherwise.  The handler performs no
not-found or already-reviewed check and signals no error. -/
def handleReviewSubmit (s : StoreState) (selectedReservation : Reservation)
    (decision : String) (reviewerId now : Nat) : StoreState :=
  let pending' := s.pending.filter fun r => r.id != selectedReservation.id
  let updatedReservation :=
    { selectedReservation with
        status := decision
        reviewedBy := some reviewerId
        reviewedAt := some now }
  if decision = "approved" then
    { s with pending := pending', approved := s.approved ++ [updatedReservation] }
  else if decision = "denied" then
    { s with pending := pending', denied := s.denied ++ [updatedReservation] }
  else
    { s with pending := pending' }

/-- The fields an admin supplies in the create-reservation modal (the modal in
`src/` renders only a stub form; the draft carries the room reference, date,
window and purpose, and the handler fills in everything else). -/
structure ReservationDraft where
  classroom : String
  date : String
  startTime : Nat
  endTime : Nat
  purpose : String
deriving DecidableEq, Repr

/-- The record built by `handleCreateSubmit` (AdminDashboard.jsx:159-166):
identifier from `Date.now()`, the draft's fields, status `"approved"`
(admin-created reservations are auto-approved), creator stamp, creation
timestamp, and the `isAdminCreated` flag. -/
def newReservation (draft : ReservationDraft) (creatorId idNow tsNow : Nat) :
    Reservation :=
  { id := idNow
    classroom := draft.classroom
    date := draft.date
    startTime := draft.startTime
    endTime := draft.endTime
    purpose := draft.purpose
    status := "approved"
    createdBy := creatorId
    createdAt := tsNow
    reviewedBy := none
    reviewedAt := none
    isAdminCreated := true }

/-- `handleCreateSubmit` (AdminDashboard.jsx:151-187), store mutation: push the
new auto-approved record onto `approved`.  No availability or conflict check
is performed anywhere on this path. -/
def handleCreateSubmit (s : StoreState) (draft : ReservationDraft)
    (creatorId idNow tsNow : Nat) : StoreState :=
  { s with approved := s.approved ++ [newReservation draft creatorId idNow tsNow] }

/-- The `delete` branch of `handleConfirmAction` (AdminDashboard.jsx:200-204),
store mutation: filter the target id out of all three partitions. -/
def deleteFromStore (s : StoreState) (targetId : Nat) : StoreState :=
  { pending := s.pending.filter fun r => r.id != targetId
    approved := s.approved.filter fun r => r.id != targetId
    denied := s.denied.filter fun r => r.id != targetId }

/-- The observable outcome of a `handleConfirmAction` branch: the new store
document, the new activity log, and the alert message shown. -/
structure ConfirmOutcome where
  store : StoreState
  activities : List ActivityRecord
  alertMessage : String
deriving DecidableEq, Repr

/-- The `delete` branch of `handleConfirmAction` (AdminDashboard.jsx:200-213)
in full: filter the id out of every partition, append a `deleted` activity
record referencing it, and show the success alert — all unconditionally,
whether or not the id was present. -/
def handleConfirmDelete (s : StoreState) (activities : List ActivityRecord)
    (confirmId : Nat) (confirmClassroom : String) (userName : String)
    (idNow tsNow : Nat) : ConfirmOutcome :=
  { store := deleteFromStore s confirmId
    activities := addRecentActivity activities idNow tsNow userName
      "deleted" "reservation"
      ("Deleted reservation for " ++ confirmClassroom) (some confirmId)
    alertMessage := "Reservation deleted successfully" }

/-- The `map` callback of the `bulk_approve` branch
(AdminDashboard.jsx:217-222), applied along the pending list: each element is
restamped `"approved"` with the reviewer's id, and `reviewedAt` is a fresh
wall-clock reading taken inside the callback — element `i` receives
`clock i`, the reading at its own iteration. -/
def stampApproved (reviewerId : Nat) (clock : Nat → Nat) :
    Nat → List Reservation → List Reservation
  | _, [] => []
  | i, r :: rest =>
      { r with
          status := "approved"
          reviewedBy := some reviewerId
          reviewedAt := some (clock i) }
        :: stampApproved reviewerId clock (i + 1) rest

/-- The `bulk_approve` branch of `handleConfirmAction`
(AdminDashboard.jsx:215-223), store mutation: push the restamped pending
records onto `approved`, then empty `pending`. -/
def bulkApproveStore (s : StoreState) (reviewerId : Nat) (clock : Nat → Nat) :
    StoreState :=
  { s with
      approved := s.approved ++ stampApproved reviewerId clock 0 s.pending
      pending := [] }

/-- Partition membership by reservation id. -/
def hasId (l : List Reservation) (i : Nat) : Bool :=
  l.any fun r => r.id == i

/-- The store invariant of the spec's data model: no reservation id appears in
two of the three status partitions at once. -/
def StoreInv (s : StoreState) : Prop :=
  (∀ r ∈ s.pending, hasId s.approved r.id = false ∧ hasId s.denied r.id = false) ∧
  (∀ r ∈ s.approved, hasId s.denied r.id = false)

instance (s : StoreState) : Decidable (StoreInv s) := by
  unfold StoreInv
  exact inferInstance

/-- A concrete sample reservation used in witnesses and counterexamples. -/
def sampleRes (i : Nat) : Reservation :=
  { id := i
    classroom := "SST-CR1"
    date := "2024-05-01"
    startTime := 540
    endTime := 600
    purpose := "Lecture"
    status := "pending"
    createdBy := 1
    createdAt := 100
    reviewedBy := none
    reviewedAt := none
    isAdminCreated := false }

/-- A concrete sample activity record used in witnesses. -/
def sampleAct (i : Nat) : ActivityRecord :=
  { id := i
    timestamp := i
    user := "Admin"
    action := "created"
    type := "reservation"
    description := "Created reservation for SST-CR1"
    reservationId := some i }

/-- C1: `isAvailable` returns true iff the room is operationally AVAILABLE and
no same-room, same-date reservation with status PENDING or APPROVED satisfies
`newStart < existingEnd && existingStart < newEnd`; moreover removing the
DENIED reservations from the list never changes the answer, and when every
existing reservation merely touches the requested window at a boundary
(`existingEnd ≤ newStart` or `newEnd ≤ existingStart`, which covers
`A.end == B.start`) an AVAILABLE room is reported available. -/
theorem isAvailable_characterisation (room : Room) (date : String)
    (s e : Nat) (existing : List Reservation) :
    (isAvailable room date s e existing = true ↔
      (room.status = RoomStatus.AVAILABLE ∧
        ∀ r ∈ existing,
          r.classroom = room.id → r.date = date →
          (r.status = "pending" ∨ r.status = "approved") →
          ¬(s < r.endTime ∧ r.startTime < e))) ∧
    (isAvailable room date s e
        (existing.filter fun r => !(r.status == "denied")) =
      isAvailable room date s e existing) ∧
    (room.status = RoomStatus.AVAILABLE →
      (∀ r ∈ existing, r.endTime ≤ s ∨ e ≤ r.startTime) →
      isAvailable room date s e existing = true) := by
  refine ⟨?_, ?_, ?_⟩
  · simp only [isAvailable, List.any_filter, List.any_eq_true,
      Bool.and_eq_true, Bool.not_eq_true', List.any_eq_false,
      beq_iff_eq, Bool.or_eq_true, decide_eq_true_eq]
    constructor
    · rintro ⟨hroom, hnone⟩
      refine ⟨hroom, ?_⟩
      intro r hr hcls hdate hst hov
      have := hnone r hr
      simp only [hcls, hdate, beq_self_eq_true, Bool.true_and] at this
      rcases hst with h | h <;>
        simp [h, hov.1, hov.2] at this
    · rintro ⟨hroom, hr⟩
      refine ⟨hroom, ?_⟩
      intro r hrmem
      by_cases hcls : r.classroom = room.id
      · by_cases hdate : r.date = date
        · by_cases hst : r.status = "pending" ∨ r.status = "approved"
          · have := hr r hrmem hcls hdate hst
            by_cases h1 : s < r.endTime
            · have h2 : ¬ r.startTime < e := fun hc => this ⟨h1, hc⟩
              simp [h2]
            · simp [h1]
          · push_neg at hst
            simp [hst.1, hst.2]
        · simp [hdate]
      · simp [hcls]
  · simp only [isAvailable, List.filter_filter]
    have hfl : (existing.filter fun a =>
        (a.classroom == room.id && a.date == date &&
          (a.status == "pending" || a.status == "approved")) &&
          !(a.status == "denied")) =
        existing.filter fun a =>
          a.classroom == room.id && a.date == date &&
            (a.status == "pending" || a.status == "approved") := by
      apply List.filter_congr
      intro r _
      by_cases h : r.status = "denied"
      · simp [h]
      · simp [h]
    rw [hfl]
  · intro hroom hbnd
    simp only [isAvailable, List.any_filter, Bool.and_eq_true, beq_iff_eq,
      Bool.not_eq_true', List.any_eq_false, Bool.and_eq_true,
      decide_eq_true_eq]
    refine ⟨by simp [hroom], ?_⟩
    intro r hr
    rcases hbnd r hr with h | h
    · have : ¬ s < r.endTime := by omega
      simp [this]
    · have : ¬ r.startTime < e := by omega
      simp [this]

/-! ## Helper lemmas about partitions and stamping -/

theorem hasId_eq_true_iff (l : List Reservation) (i : Nat) :
    hasId l i = true ↔ ∃ r ∈ l, r.id = i := by
  simp [hasId, List.any_eq_true]

theorem hasId_eq_false_iff (l : List Reservation) (i : Nat) :
    hasId l i = false ↔ ∀ r ∈ l, r.id ≠ i := by
  simp [hasId, List.any_eq_false]

theorem hasId_append (l₁ l₂ : List Reservation) (i : Nat) :
    hasId (l₁ ++ l₂) i = (hasId l₁ i || hasId l₂ i) := by
  simp [hasId, List.any_append]

theorem hasId_filter_ne_self (l : List Reservation) (j : Nat) :
    hasId (l.filter fun r => r.id != j) j = false := by
  rw [hasId_eq_false_iff]
  intro r hr
  have := (List.mem_filter.mp hr).2
  simpa using this

theorem hasId_filter_false (l : List Reservation) (p : Reservation → Bool) (i : Nat)
    (h : hasId l i = false) : hasId (l.filter p) i = false := by
  rw [hasId_eq_false_iff] at h ⊢
  intro r hr
  exact h r (List.mem_filter.mp hr).1

theorem filter_ne_of_hasId_false (l : List Reservation) (j : Nat)
    (h : hasId l j = false) : (l.filter fun r => r.id != j) = l := by
  rw [List.filter_eq_self]
  intro r hr
  have := (hasId_eq_false_iff l j).mp h r hr
  simpa using this

theorem stampApproved_length (reviewerId : Nat) (clock : Nat → Nat)
    (l : List Reservation) :
    ∀ i, (stampApproved reviewerId clock i l).length = l.length := by
  induction l with
  | nil => intro i; rfl
  | cons r rest ih => intro i; simp [stampApproved, ih (i + 1)]

theorem stampApproved_mem (reviewerId : Nat) (clock : Nat → Nat)
    (l : List Reservation) :
    ∀ i a, a ∈ stampApproved reviewerId clock i l →
      ∃ j, ∃ r ∈ l, a =
        { r with
            status := "approved"
            reviewedBy := some reviewerId
            reviewedAt := some (clock j) } := by
  induction l with
  | nil => intro i a h; simp [stampApproved] at h
  | cons r rest ih =>
    intro i a h
    simp only [stampApproved, List.mem_cons] at h
    rcases h with h | h
    · exact ⟨i, r, List.mem_cons_self r rest, h⟩
    · obtain ⟨j, r₀, hr₀, ha⟩ := ih (i + 1) a h
      exact ⟨j, r₀, List.mem_cons_of_mem r hr₀, ha⟩

theorem hasId_stampApproved (reviewerId : Nat) (clock : Nat → Nat)
    (l : List Reservation) :
    ∀ i j, hasId (stampApproved reviewerId clock i l) j = hasId l j := by
  induction l with
  | nil => intro i j; rfl
  | cons r rest ih =>
    intro i j
    have h2 := ih (i + 1) j
    simp only [stampApproved, hasId, List.any_cons] at h2 ⊢
    rw [h2]

/-! ## C4: admin-created reservations are auto-approved -/

/-- C4: an administrator-created reservation is always stamped `"approved"`
and pushed directly into the approved partition; `pending` and `denied` are
untouched (the record is never PENDING), and the equations hold for every
store state and draft unconditionally — no availability/conflict check exists
on this path to block the submission. -/
theorem adminCreate_auto_approved (s : StoreState) (draft : ReservationDraft)
    (creatorId idNow tsNow : Nat) :
    (newReservation draft creatorId idNow tsNow).status = "approved" ∧
    (newReservation draft creatorId idNow tsNow).isAdminCreated = true ∧
    (handleCreateSubmit s draft creatorId idNow tsNow).approved
      = s.approved ++ [newReservation draft creatorId idNow tsNow] ∧
    (handleCreateSubmit s draft creatorId idNow tsNow).pending = s.pending ∧
    (handleCreateSubmit s draft creatorId idNow tsNow).denied = s.denied :=
  ⟨rfl, rfl, rfl, rfl, rfl⟩

/-! ## C9: a review decision other than approved/denied drops the record -/

/-- C9: submitting a review whose decision string is neither `"approved"` nor
`"denied"` removes the reservation from the pending partition and adds it to
no partition: the whole effect is the pending filter, and if the id was not
already present in `approved`/`denied` the reservation is afterwards in no
partition of the store at all. -/
theorem review_other_decision_vanishes (s : StoreState) (sel : Reservation)
    (decision : String) (reviewerId now : Nat)
    (hap : decision ≠ "approved") (hde : decision ≠ "denied")
    (hA : hasId s.approved sel.id = false) (hD : hasId s.denied sel.id = false) :
    (handleReviewSubmit s sel decision reviewerId now)
      = { s with pending := s.pending.filter fun r => r.id != sel.id } ∧
    hasId (handleReviewSubmit s sel decision reviewerId now).pending sel.id = false ∧
    hasId (handleReviewSubmit s sel decision reviewerId now).approved sel.id = false ∧
    hasId (handleReviewSubmit s sel decision reviewerId now).denied sel.id = false := by
  have hs : handleReviewSubmit s sel decision reviewerId now
      = { s with pending := s.pending.filter fun r => r.id != sel.id } := by
    simp [handleReviewSubmit, hap, hde]
  refine ⟨hs, ?_, ?_, ?_⟩
  · rw [hs]; exact hasId_filter_ne_self _ _
  · rw [hs]; exact hA
  · rw [hs]; exact hD

/-- Witness for C9 at a concrete input: reviewing the single pending
reservation with the decision string `"pending"` makes it vanish. -/
theorem review_other_decision_vanishes_witness :
    hasId (handleReviewSubmit ⟨[sampleRes 1], [], []⟩ (sampleRes 1)
      "pending" 9 200).pending (sampleRes 1).id = false ∧
    hasId (handleReviewSubmit ⟨[sampleRes 1], [], []⟩ (sampleRes 1)
      "pending" 9 200).approved (sampleRes 1).id = false ∧
    hasId (handleReviewSubmit ⟨[sampleRes 1], [], []⟩ (sampleRes 1)
      "pending" 9 200).denied (sampleRes 1).id = false :=
  (review_other_decision_vanishes ⟨[sampleRes 1], [], []⟩ (sampleRes 1)
    "pending" 9 200 (by decide) (by decide) (by decide) (by decide)).2

/-! ## More helper lemmas -/

theorem hasId_filter_ne_of_ne (l : List Reservation) (i j : Nat) (h : i ≠ j) :
    hasId (l.filter fun r => r.id != j) i = hasId l i := by
  cases hfl : hasId (l.filter fun r => r.id != j) i
  · cases hl : hasId l i
    · rfl
    · exfalso
      obtain ⟨r, hr, hid⟩ := (hasId_eq_true_iff _ _).mp hl
      have hrf : r ∈ l.filter fun r => r.id != j := by
        refine List.mem_filter.mpr ⟨hr, ?_⟩
        simp [hid, h]
      exact (hasId_eq_false_iff _ _).mp hfl r hrf hid
  · obtain ⟨r, hr, hid⟩ := (hasId_eq_true_iff _ _).mp hfl
    exact ((hasId_eq_true_iff _ _).mpr ⟨r, (List.mem_filter.mp hr).1, hid⟩).symm

theorem hasId_filter_true (l : List Reservation) (p : Reservation → Bool) (i : Nat)
    (h : hasId (l.filter p) i = true) : hasId l i = true := by
  obtain ⟨r, hr, hid⟩ := (hasId_eq_true_iff _ _).mp h
  exact (hasId_eq_true_iff _ _).mpr ⟨r, (List.mem_filter.mp hr).1, hid⟩

theorem handleReviewSubmit_pending (s : StoreState) (sel : Reservation)
    (d : String) (reviewerId now : Nat) :
    (handleReviewSubmit s sel d reviewerId now).pending
      = s.pending.filter fun r => r.id != sel.id := by
  simp only [handleReviewSubmit]
  split
  · rfl
  · split
    · rfl
    · rfl

theorem storeInv_iff (s : StoreState) :
    StoreInv s ↔ ∀ i : Nat,
      (hasId s.pending i = true →
        hasId s.approved i = false ∧ hasId s.denied i = false) ∧
      (hasId s.approved i = true → hasId s.denied i = false) := by
  constructor
  · rintro ⟨h1, h2⟩ i
    constructor
    · intro hp
      obtain ⟨r, hr, hid⟩ := (hasId_eq_true_iff _ _).mp hp
      subst hid
      exact h1 r hr
    · intro ha
      obtain ⟨r, hr, hid⟩ := (hasId_eq_true_iff _ _).mp ha
      subst hid
      exact h2 r hr
  · intro h
    constructor
    · intro r hr
      exact (h r.id).1 ((hasId_eq_true_iff _ _).mpr ⟨r, hr, rfl⟩)
    · intro r hr
      exact (h r.id).2 ((hasId_eq_true_iff _ _).mpr ⟨r, hr, rfl⟩)

/-! ## C3: the review handler has no error path -/

/-- Counterexample to C3: calling the review operation twice on the same id
does not fail the second time.  Starting from a store whose only pending
reservation has id 1, the first review succeeds; the second review of the
same id (now absent from PENDING) also succeeds, appending a second record
with id 1 to the approved partition instead of failing with
`InvalidTransitionError`. -/
theorem review_twice_no_failure :
    (handleReviewSubmit ⟨[sampleRes 1], [], []⟩ (sampleRes 1)
      "approved" 9 200).approved.length = 1 ∧
    (handleReviewSubmit
        (handleReviewSubmit ⟨[sampleRes 1], [], []⟩ (sampleRes 1) "approved" 9 200)
        (sampleRes 1) "approved" 9 300).approved.length = 2 ∧
    hasId (handleReviewSubmit
        (handleReviewSubmit ⟨[sampleRes 1], [], []⟩ (sampleRes 1) "approved" 9 200)
        (sampleRes 1) "approved" 9 300).approved 1 = true := by
  decide

/-- C3 amended: the review handler is total and has no `NotFoundError` or
`InvalidTransitionError` path.  When the selected id is absent from the
PENDING partition, a review with decision `"approved"` or `"denied"` leaves
`pending` unchanged and still appends the restamped record to the decided
partition — so a second review of an already-reviewed reservation appends a
duplicate rather than failing. -/
theorem review_absent_id_still_succeeds (s : StoreState) (sel : Reservation)
    (d : String) (reviewerId now : Nat)
    (habs : hasId s.pending sel.id = false)
    (hd : d = "approved" ∨ d = "denied") :
    (handleReviewSubmit s sel d reviewerId now).pending = s.pending ∧
    (handleReviewSubmit s sel d reviewerId now).approved.length
        + (handleReviewSubmit s sel d reviewerId now).denied.length
      = s.approved.length + s.denied.length + 1 := by
  have hfil := filter_ne_of_hasId_false s.pending sel.id habs
  rcases hd with h | h
  · subst h
    refine ⟨?_, ?_⟩
    · rw [handleReviewSubmit_pending]; exact hfil
    · simp [handleReviewSubmit]
      omega
  · subst h
    refine ⟨?_, ?_⟩
    · rw [handleReviewSubmit_pending]; exact hfil
    · simp [handleReviewSubmit]
      omega

/-- Witness for the amended C3 at a concrete input: re-reviewing (with
decision `"denied"`) a reservation that sits only in the approved partition
succeeds and grows the approved+denied total to 2. -/
theorem review_absent_id_still_succeeds_witness :
    (handleReviewSubmit ⟨[], [sampleRes 1], []⟩ (sampleRes 1)
      "denied" 9 300).approved.length
      + (handleReviewSubmit ⟨[], [sampleRes 1], []⟩ (sampleRes 1)
        "denied" 9 300).denied.length = 2 := by
  have h := review_absent_id_still_succeeds ⟨[], [sampleRes 1], []⟩ (sampleRes 1)
    "denied" 9 300 (by decide) (Or.inr rfl)
  simpa using h.2

/-! ## C2: partition disjointness across the operations -/

theorem reviewInv_of_pending (s : StoreState) (sel : Reservation) (d : String)
    (reviewerId now : Nat) (hInv : StoreInv s)
    (hSel : hasId s.pending sel.id = true) :
    StoreInv (handleReviewSubmit s sel d reviewerId now) := by
  have hInv' := (storeInv_iff s).mp hInv
  rw [storeInv_iff]
  intro i
  have hpend := handleReviewSubmit_pending s sel d reviewerId now
  by_cases hap : d = "approved"
  · subst hap
    have happr : (handleReviewSubmit s sel "approved" reviewerId now).approved
        = s.approved ++
          [{ sel with
              status := "approved"
              reviewedBy := some reviewerId
              reviewedAt := some now }] := by
      simp [handleReviewSubmit]
    have hden : (handleReviewSubmit s sel "approved" reviewerId now).denied
        = s.denied := by
      simp [handleReviewSubmit]
    rw [hpend, happr, hden]
    constructor
    · intro hp
      by_cases hi : i = sel.id
      · rw [hi, hasId_filter_ne_self] at hp
        simp at hp
      · rw [hasId_filter_ne_of_ne _ _ _ hi] at hp
        obtain ⟨hA, hD⟩ := (hInv' i).1 hp
        refine ⟨?_, hD⟩
        rw [hasId_append, hA]
        simp [hasId, Ne.symm hi]
    · intro ha
      rw [hasId_append, Bool.or_eq_true] at ha
      rcases ha with hA | hU
      · exact (hInv' i).2 hA
      · have hid : sel.id = i := by simpa [hasId] using hU
        rw [← hid]
        exact ((hInv' sel.id).1 hSel).2
  · by_cases hde : d = "denied"
    · subst hde
      have happr : (handleReviewSubmit s sel "denied" reviewerId now).approved
          = s.approved := by
        simp [handleReviewSubmit]
      have hden : (handleReviewSubmit s sel "denied" reviewerId now).denied
          = s.denied ++
            [{ sel with
                status := "denied"
                reviewedBy := some reviewerId
                reviewedAt := some now }] := by
        simp [handleReviewSubmit]
      rw [hpend, happr, hden]
      constructor
      · intro hp
        by_cases hi : i = sel.id
        · rw [hi, hasId_filter_ne_self] at hp
          simp at hp
        · rw [hasId_filter_ne_of_ne _ _ _ hi] at hp
          obtain ⟨hA, hD⟩ := (hInv' i).1 hp
          refine ⟨hA, ?_⟩
          rw [hasId_append, hD]
          simp [hasId, Ne.symm hi]
      · intro ha
        have h1 : hasId s.denied i = false := (hInv' i).2 ha
        have h2 : sel.id ≠ i := by
          intro h
          have hAfalse := ((hInv' sel.id).1 hSel).1
          rw [h, ha] at hAfalse
          exact Bool.noConfusion hAfalse
        rw [hasId_append, h1]
        simp [hasId, h2]
    · have heqA : (handleReviewSubmit s sel d reviewerId now).approved
          = s.approved := by
        simp [handleReviewSubmit, hap, hde]
      have heqD : (handleReviewSubmit s sel d reviewerId now).denied
          = s.denied := by
        simp [handleReviewSubmit, hap, hde]
      rw [hpend, heqA, heqD]
      constructor
      · intro hp
        by_cases hi : i = sel.id
        · rw [hi, hasId_filter_ne_self] at hp
          simp at hp
        · rw [hasId_filter_ne_of_ne _ _ _ hi] at hp
          exact (hInv' i).1 hp
      · exact (hInv' i).2

theorem createInv_of_fresh (s : StoreState) (draft : ReservationDraft)
    (creatorId idNow tsNow : Nat) (hInv : StoreInv s)
    (hFreshP : hasId s.pending idNow = false)
    (hFreshD : hasId s.denied idNow = false) :
    StoreInv (handleCreateSubmit s draft creatorId idNow tsNow) := by
  have hInv' := (storeInv_iff s).mp hInv
  rw [storeInv_iff]
  intro i
  have happr : (handleCreateSubmit s draft creatorId idNow tsNow).approved
      = s.approved ++ [newReservation draft creatorId idNow tsNow] := rfl
  have hpend : (handleCreateSubmit s draft creatorId idNow tsNow).pending
      = s.pending := rfl
  have hden : (handleCreateSubmit s draft creatorId idNow tsNow).denied
      = s.denied := rfl
  rw [happr, hpend, hden]
  constructor
  · intro hp
    obtain ⟨hA, hD⟩ := (hInv' i).1 hp
    refine ⟨?_, hD⟩
    rw [hasId_append, hA]
    have hne : idNow ≠ i := by
      intro h
      rw [h, hp] at hFreshP
      exact Bool.noConfusion hFreshP
    simp [hasId, newReservation, hne]
  · intro ha
    rw [hasId_append, Bool.or_eq_true] at ha
    rcases ha with hA | hU
    · exact (hInv' i).2 hA
    · have hid : idNow = i := by simpa [hasId, newReservation] using hU
      rw [← hid]
      exact hFreshD

theorem bulkInv (s : StoreState) (reviewerId : Nat) (clock : Nat → Nat)
    (hInv : StoreInv s) : StoreInv (bulkApproveStore s reviewerId clock) := by
  have hInv' := (storeInv_iff s).mp hInv
  rw [storeInv_iff]
  intro i
  have hpend : (bulkApproveStore s reviewerId clock).pending = [] := rfl
  have happr : (bulkApproveStore s reviewerId clock).approved
      = s.approved ++ stampApproved reviewerId clock 0 s.pending := rfl
  have hden : (bulkApproveStore s reviewerId clock).denied = s.denied := rfl
  rw [hpend, happr, hden]
  constructor
  · intro hp
    simp [hasId] at hp
  · intro ha
    rw [hasId_append, Bool.or_eq_true, hasId_stampApproved] at ha
    rcases ha with hA | hP
    · exact (hInv' i).2 hA
    · exact ((hInv' i).1 hP).2

theorem deleteInv (s : StoreState) (targetId : Nat) (hInv : StoreInv s) :
    StoreInv (deleteFromStore s targetId) := by
  have hInv' := (storeInv_iff s).mp hInv
  rw [storeInv_iff]
  intro i
  constructor
  · intro hp
    have hp' : hasId s.pending i = true := hasId_filter_true s.pending _ i hp
    obtain ⟨hA, hD⟩ := (hInv' i).1 hp'
    exact ⟨hasId_filter_false _ _ _ hA, hasId_filter_false _ _ _ hD⟩
  · intro ha
    have ha' : hasId s.approved i = true := hasId_filter_true s.approved _ i ha
    exact hasId_filter_false _ _ _ ((hInv' i).2 ha')

/-- Counterexample to C2: the review operation does not preserve the
partition-disjointness invariant on every input the handler accepts.
Starting from a store satisfying the invariant whose only record (id 1) sits
in the approved partition, reviewing it with decision `"denied"` leaves id 1
in `approved` and pushes a copy into `denied`: one id, two partitions. -/
theorem review_nonpending_breaks_invariant :
    StoreInv ⟨[], [sampleRes 1], []⟩ ∧
    hasId (handleReviewSubmit ⟨[], [sampleRes 1], []⟩ (sampleRes 1)
      "denied" 9 300).approved 1 = true ∧
    hasId (handleReviewSubmit ⟨[], [sampleRes 1], []⟩ (sampleRes 1)
      "denied" 9 300).denied 1 = true ∧
    ¬ StoreInv (handleReviewSubmit ⟨[], [sampleRes 1], []⟩ (sampleRes 1)
      "denied" 9 300) := by
  refine ⟨?_, ?_, ?_, ?_⟩ <;> decide

/-- C2 amended: provided the review operation is applied to a reservation
currently in the PENDING partition (as the review workflow intends) and the
id assigned to an admin-created reservation is fresh, every operation —
review, create, bulk-approve, delete — preserves the invariant that no
reservation id appears in two partitions at once; and no operation ever adds
an id to PENDING, so a reservation that has left PENDING never re-enters
it. -/
theorem storeOps_partition_invariant (s : StoreState) (sel : Reservation)
    (d : String) (reviewerId now : Nat) (draft : ReservationDraft)
    (creatorId idNow tsNow : Nat) (clock : Nat → Nat) (targetId : Nat)
    (hInv : StoreInv s) (hSel : hasId s.pending sel.id = true)
    (hFreshP : hasId s.pending idNow = false)
    (hFreshD : hasId s.denied idNow = false) :
    StoreInv (handleReviewSubmit s sel d reviewerId now) ∧
    StoreInv (handleCreateSubmit s draft creatorId idNow tsNow) ∧
    StoreInv (bulkApproveStore s reviewerId clock) ∧
    StoreInv (deleteFromStore s targetId) ∧
    (∀ r ∈ (handleReviewSubmit s sel d reviewerId now).pending,
      hasId s.pending r.id = true) ∧
    (∀ r ∈ (handleCreateSubmit s draft creatorId idNow tsNow).pending,
      hasId s.pending r.id = true) ∧
    (∀ r ∈ (bulkApproveStore s reviewerId clock).pending,
      hasId s.pending r.id = true) ∧
    (∀ r ∈ (deleteFromStore s targetId).pending,
      hasId s.pending r.id = true) := by
  refine ⟨reviewInv_of_pending s sel d reviewerId now hInv hSel,
    createInv_of_fresh s draft creatorId idNow tsNow hInv hFreshP hFreshD,
    bulkInv s reviewerId clock hInv, deleteInv s targetId hInv, ?_, ?_, ?_, ?_⟩
  · intro r hr
    rw [handleReviewSubmit_pending] at hr
    exact (hasId_eq_true_iff _ _).mpr ⟨r, (List.mem_filter.mp hr).1, rfl⟩
  · intro r hr
    exact (hasId_eq_true_iff _ _).mpr ⟨r, hr, rfl⟩
  · intro r hr
    simp [bulkApproveStore] at hr
  · intro r hr
    exact (hasId_eq_true_iff _ _).mpr ⟨r, (List.mem_filter.mp hr).1, rfl⟩

/-- Witness for the amended C2 at a concrete input: reviewing the pending
reservation of a three-record store keeps the partitions disjoint. -/
theorem storeOps_partition_invariant_witness :
    StoreInv (handleReviewSubmit ⟨[sampleRes 1], [sampleRes 2], [sampleRes 3]⟩
      (sampleRes 1) "approved" 9 200) :=
  (storeOps_partition_invariant ⟨[sampleRes 1], [sampleRes 2], [sampleRes 3]⟩
    (sampleRes 1) "approved" 9 200
    ⟨"SST-CR1", "2024-05-01", 600, 660, "Seminar"⟩ 9 4 201 (fun i => i) 2
    (by decide) (by decide) (by decide) (by decide)).1

/-! ## C5: bulk approve moves every pending reservation -/

/-- C5: bulk-approve moves every reservation of the PENDING partition to
APPROVED, stamping the reviewer and a review timestamp on each; the number of
reservations moved is exactly the size of the PENDING partition (the approved
partition grows by precisely that count); PENDING is empty afterwards; and
when PENDING is already empty the operation moves 0 records and leaves the
APPROVED and DENIED partitions untouched. -/
theorem bulkApprove_moves_all_pending (s : StoreState) (reviewerId : Nat)
    (clock : Nat → Nat) :
    (bulkApproveStore s reviewerId clock).pending = [] ∧
    (bulkApproveStore s reviewerId clock).denied = s.denied ∧
    (bulkApproveStore s reviewerId clock).approved
      = s.approved ++ stampApproved reviewerId clock 0 s.pending ∧
    (bulkApproveStore s reviewerId clock).approved.length
      = s.approved.length + s.pending.length ∧
    (∀ r ∈ stampApproved reviewerId clock 0 s.pending,
      r.status = "approved" ∧ r.reviewedBy = some reviewerId ∧
        r.reviewedAt.isSome = true) ∧
    (s.pending = [] →
      (bulkApproveStore s reviewerId clock).approved = s.approved ∧
      (bulkApproveStore s reviewerId clock).denied = s.denied) := by
  refine ⟨rfl, rfl, rfl, ?_, ?_, ?_⟩
  · show (s.approved ++ stampApproved reviewerId clock 0 s.pending).length = _
    rw [List.length_append, stampApproved_length]
  · intro r hr
    obtain ⟨j, r₀, hr₀, ha⟩ := stampApproved_mem reviewerId clock s.pending 0 r hr
    subst ha
    exact ⟨rfl, rfl, rfl⟩
  · intro hp
    refine ⟨?_, rfl⟩
    show s.approved ++ stampApproved reviewerId clock 0 s.pending = s.approved
    rw [hp]
    simp [stampApproved]

/-- Witness for C5 at a concrete input: bulk-approving a store with an empty
PENDING partition leaves the approved partition untouched. -/
theorem bulkApprove_moves_all_pending_witness :
    (bulkApproveStore ⟨[], [sampleRes 2], []⟩ 9 (fun i => i)).approved
      = [sampleRes 2] :=
  ((bulkApprove_moves_all_pending ⟨[], [sampleRes 2], []⟩ 9 (fun i => i)).2.2.2.2.2
    rfl).1

/-! ## C6: reviewer and timestamp stamped by one bulk-approve call -/

/-- Counterexample to C6: the bulk-approve `map` callback reads the wall clock
once per element, so when the clock advances between iterations the two moved
reservations receive different `reviewedAt` stamps even though both carry the
identical reviewer reference. -/
theorem bulkApprove_distinct_timestamps :
    ((bulkApproveStore ⟨[sampleRes 1, sampleRes 2], [], []⟩ 7
        (fun i => 1000 + i)).approved.map fun r => r.reviewedBy)
      = [some 7, some 7] ∧
    ((bulkApproveStore ⟨[sampleRes 1, sampleRes 2], [], []⟩ 7
        (fun i => 1000 + i)).approved.map fun r => r.reviewedAt)
      = [some 1000, some 1001] ∧
    (some 1000 : Option Nat) ≠ some 1001 := by
  refine ⟨rfl, rfl, by decide⟩

/-- C6 amended: every pair of reservations moved by the same bulk-approve call
carries the identical reviewer reference; each element's `reviewedAt` is the
wall-clock reading at its own map iteration, so the review timestamps are
identical whenever the clock does not advance during the call (for example a
constant clock), but not in general. -/
theorem bulkApprove_same_reviewer (s : StoreState) (reviewerId : Nat)
    (clock : Nat → Nat) (a b : Reservation)
    (ha : a ∈ stampApproved reviewerId clock 0 s.pending)
    (hb : b ∈ stampApproved reviewerId clock 0 s.pending) :
    a.reviewedBy = b.reviewedBy ∧
    ((∀ i j, clock i = clock j) → a.reviewedAt = b.reviewedAt) := by
  obtain ⟨ja, ra, hra, haa⟩ := stampApproved_mem reviewerId clock s.pending 0 a ha
  obtain ⟨jb, rb, hrb, hbb⟩ := stampApproved_mem reviewerId clock s.pending 0 b hb
  subst haa
  subst hbb
  exact ⟨rfl, fun h => by simp [h ja jb]⟩

/-- Witness for the amended C6 at a concrete input: with a clock that does not
advance during the call, the two moved reservations share the timestamp. -/
theorem bulkApprove_same_reviewer_witness :
    ({ sampleRes 1 with
        status := "approved"
        reviewedBy := some 7
        reviewedAt := some 1000 } : Reservation).reviewedAt
      = ({ sampleRes 2 with
          status := "approved"
          reviewedBy := some 7
          reviewedAt := some 1000 } : Reservation).reviewedAt :=
  (bulkApprove_same_reviewer ⟨[sampleRes 1, sampleRes 2], [], []⟩ 7 (fun _ => 1000)
    { sampleRes 1 with
        status := "approved"
        reviewedBy := some 7
        reviewedAt := some 1000 }
    { sampleRes 2 with
        status := "approved"
        reviewedBy := some 7
        reviewedAt := some 1000 }
    (by decide) (by decide)).2 (fun i j => rfl)

/-! ## C7 and C10: the delete action -/

/-- Counterexample to C7: deleting an id absent from every partition is not a
"returns false" no-op.  On the empty store the partitions stay empty, but the
handler still reports `Reservation deleted successfully` and appends a
`deleted` activity record — there is no not-found signal and the overall
state (activity log) changes. -/
theorem delete_absent_not_noop :
    (handleConfirmDelete ⟨[], [], []⟩ [] 42 "SST-CR1" "Admin" 500 501).store
      = ⟨[], [], []⟩ ∧
    (handleConfirmDelete ⟨[], [], []⟩ [] 42 "SST-CR1" "Admin" 500
      501).alertMessage = "Reservation deleted successfully" ∧
    (handleConfirmDelete ⟨[], [], []⟩ [] 42 "SST-CR1" "Admin" 500
      501).activities.length = 1 ∧
    ((handleConfirmDelete ⟨[], [], []⟩ [] 42 "SST-CR1" "Admin" 500
      501).activities.map fun a => a.action) = ["deleted"] :=
  ⟨rfl, rfl, rfl, rfl⟩

/-- C7 amended: the delete action removes the reservation from every partition
holding the id and never raises an error; but it does not return false on a
missing id: when the id is found in no partition the three partitions are
left unchanged while the handler still appends a `deleted` activity record
and reports success. -/
theorem delete_removes_and_reports (s : StoreState)
    (activities : List ActivityRecord) (targetId : Nat)
    (confirmClassroom userName : String) (idNow tsNow : Nat) :
    hasId (handleConfirmDelete s activities targetId confirmClassroom userName
      idNow tsNow).store.pending targetId = false ∧
    hasId (handleConfirmDelete s activities targetId confirmClassroom userName
      idNow tsNow).store.approved targetId = false ∧
    hasId (handleConfirmDelete s activities targetId confirmClassroom userName
      idNow tsNow).store.denied targetId = false ∧
    (handleConfirmDelete s activities targetId confirmClassroom userName
      idNow tsNow).alertMessage = "Reservation deleted successfully" ∧
    (handleConfirmDelete s activities targetId confirmClassroom userName
        idNow tsNow).activities.head?
      = some
        { id := idNow
          timestamp := tsNow
          user := userName
          action := "deleted"
          type := "reservation"
          description := "Deleted reservation for " ++ confirmClassroom
          reservationId := some targetId } ∧
    (hasId s.pending targetId = false →
      (handleConfirmDelete s activities targetId confirmClassroom userName
        idNow tsNow).store.pending = s.pending) ∧
    (hasId s.approved targetId = false →
      (handleConfirmDelete s activities targetId confirmClassroom userName
        idNow tsNow).store.approved = s.approved) ∧
    (hasId s.denied targetId = false →
      (handleConfirmDelete s activities targetId confirmClassroom userName
        idNow tsNow).store.denied = s.denied) := by
  refine ⟨hasId_filter_ne_self _ _, hasId_filter_ne_self _ _,
    hasId_filter_ne_self _ _, rfl, rfl, ?_, ?_, ?_⟩
  · intro h
    exact filter_ne_of_hasId_false _ _ h
  · intro h
    exact filter_ne_of_hasId_false _ _ h
  · intro h
    exact filter_ne_of_hasId_false _ _ h

/-- Witness for the amended C7 at a concrete input: deleting id 42 from a
store that does not contain it leaves the approved partition unchanged. -/
theorem delete_removes_and_reports_witness :
    (handleConfirmDelete ⟨[], [sampleRes 2], []⟩ [] 42 "SST-CR1" "Admin" 500
      501).store.approved = [sampleRes 2] :=
  (delete_removes_and_reports ⟨[], [sampleRes 2], []⟩ [] 42 "SST-CR1" "Admin"
    500 501).2.2.2.2.2.2.1 (by decide)

/-- C10: executing the delete action on an id absent from all three partitions
leaves pending, approved and denied unchanged (frame condition) yet still
appends a `deleted` activity record referencing that id and reports the
deletion as successful. -/
theorem delete_absent_frame_and_activity (s : StoreState)
    (activities : List ActivityRecord) (targetId : Nat)
    (confirmClassroom userName : String) (idNow tsNow : Nat)
    (hP : hasId s.pending targetId = false)
    (hA : hasId s.approved targetId = false)
    (hD : hasId s.denied targetId = false) :
    (handleConfirmDelete s activities targetId confirmClassroom userName
      idNow tsNow).store = s ∧
    (handleConfirmDelete s activities targetId confirmClassroom userName
        idNow tsNow).activities
      = pushActivity
        { id := idNow
          timestamp := tsNow
          user := userName
          action := "deleted"
          type := "reservation"
          description := "Deleted reservation for " ++ confirmClassroom
          reservationId := some targetId } activities ∧
    (handleConfirmDelete s activities targetId confirmClassroom userName
        idNow tsNow).activities.head?
      = some
        { id := idNow
          timestamp := tsNow
          user := userName
          action := "deleted"
          type := "reservation"
          description := "Deleted reservation for " ++ confirmClassroom
          reservationId := some targetId } ∧
    (handleConfirmDelete s activities targetId confirmClassroom userName
      idNow tsNow).alertMessage = "Reservation deleted successfully" := by
  refine ⟨?_, rfl, rfl, rfl⟩
  show deleteFromStore s targetId = s
  unfold deleteFromStore
  rw [filter_ne_of_hasId_false _ _ hP, filter_ne_of_hasId_false _ _ hA,
    filter_ne_of_hasId_false _ _ hD]

/-- Witness for C10 at a concrete input: deleting absent id 42 leaves the
whole store untouched while showing the success alert. -/
theorem delete_absent_frame_and_activity_witness :
    (handleConfirmDelete ⟨[sampleRes 1], [], []⟩ [] 42 "SST-CR1" "Admin" 500
      501).store = ⟨[sampleRes 1], [], []⟩ ∧
    (handleConfirmDelete ⟨[sampleRes 1], [], []⟩ [] 42 "SST-CR1" "Admin" 500
      501).alertMessage = "Reservation deleted successfully" :=
  ⟨(delete_absent_frame_and_activity ⟨[sampleRes 1], [], []⟩ [] 42 "SST-CR1"
      "Admin" 500 501 (by decide) (by decide) (by decide)).1,
    (delete_absent_frame_and_activity ⟨[sampleRes 1], [], []⟩ [] 42 "SST-CR1"
      "Admin" 500 501 (by decide) (by decide) (by decide)).2.2.2⟩

/-! ## C8: the bounded activity log -/

theorem take_cons_take {α : Type} (n m : Nat) (h : n ≤ m + 1) (a : α)
    (l : List α) :
    List.take n (a :: List.take m l) = List.take n (a :: l) := by
  cases n with
  | zero => simp
  | succ k =>
    have hk : k ≤ m := Nat.le_of_succ_le_succ h
    simp [List.take_succ_cons, List.take_take, Nat.min_eq_left hk]

theorem foldl_pushActivity (recs : List ActivityRecord) :
    ∀ log, recs.foldl (fun acc a => pushActivity a acc) (List.take 50 log)
      = List.take 50 (recs.reverse ++ log) := by
  induction recs with
  | nil => intro log; simp
  | cons a as ih =>
    intro log
    simp only [List.foldl_cons]
    have h1 : pushActivity a (List.take 50 log) = List.take 50 (a :: log) :=
      take_cons_take 50 50 (by omega) a log
    rw [h1, ih (a :: log)]
    simp [List.append_assoc]

theorem appendAll_eq (recs : List ActivityRecord) :
    appendAll recs = List.take 50 recs.reverse := by
  have h := foldl_pushActivity recs []
  simpa [appendAll] using h

/-- C8: for every sequence of appends, the activity log holds at most the 50
most recent records in newest-first order (`append` prepends and silently
truncates beyond 50), and `recent n` returns the first `n` entries; in
particular after 55 appends exactly 50 entries remain, newest first, with the
oldest 5 dropped. -/
theorem activityLog_bounded (recs : List ActivityRecord) :
    appendAll recs = List.take 50 recs.reverse ∧
    (appendAll recs).length ≤ 50 ∧
    (∀ n, recent n (appendAll recs) = List.take (min n 50) recs.reverse) ∧
    (recs.length = 55 →
      (appendAll recs).length = 50 ∧
      appendAll recs = (recs.drop 5).reverse) := by
  have he := appendAll_eq recs
  refine ⟨he, ?_, ?_, ?_⟩
  · rw [he, List.length_take]
    exact Nat.min_le_left _ _
  · intro n
    rw [recent, he, List.take_take]
  · intro h55
    constructor
    · rw [he, List.length_take, List.length_reverse, h55]
      decide
    · rw [he]
      have hsplit : recs.reverse = (recs.drop 5).reverse ++ (recs.take 5).reverse := by
        rw [← List.reverse_append, List.take_append_drop]
      rw [hsplit]
      have hlen : ((recs.drop 5).reverse).length = 50 := by
        rw [List.length_reverse, List.length_drop, h55]
      rw [← hlen, List.take_left]

/-- Witness for C8 at a concrete input: appending 55 records leaves exactly 50
in the log. -/
theorem activityLog_bounded_witness :
    (appendAll ((List.range 55).map sampleAct)).length = 50 :=
  ((activityLog_bounded ((List.range 55).map sampleAct)).2.2.2 (by simp)).1

/-- Witness for C1 at the spec's concrete scenario: room `SST-CR1` with an
APPROVED reservation 09:00–10:00 (540–600 minutes); a request for 10:00–11:00
(600–660) starts exactly at the existing end boundary and is available. -/
theorem isAvailable_characterisation_witness :
    isAvailable ⟨"SST-CR1", "SST", "Classroom 1", 30, RoomStatus.AVAILABLE⟩
      "2024-05-01" 600 660
      [{ sampleRes 1 with status := "approved" }] = true :=
  (isAvailable_characterisation
    ⟨"SST-CR1", "SST", "Classroom 1", 30, RoomStatus.AVAILABLE⟩
    "2024-05-01" 600 660
    [{ sampleRes 1 with status := "approved" }]).2.2 rfl (by decide)
